import Mathlib

/-!
Verification of the ConstructSafe risk detection and scoring engine
(`app.py`).  The engine is embedded shallowly: the rule table, scanner,
scorer and aggregator become pure Lean functions over `List Char` texts
and exact rationals (`ℚ`) in place of Python floats; the SQLite-backed
risk store becomes explicit state passing over a `Store` value.  The
database connection that can fail is modelled by a `DbOutcome` parameter:
`ok` runs the inserts and commits, `fail msg` stands for an exception
raised by the storage layer, caught by the endpoint's `except` clause
(an uncommitted transaction is rolled back, so the store is unchanged).
-/

attribute [local semireducible] Rat.mul Rat.inv Rat.add Rat.sub

namespace ConstructSafe

/-- One entry of the `RISK_PATTERNS` dictionary: a risk category name with
its keyword list and mitigation text. -/
structure CategoryRule where
  name : String
  keywords : List String
  mitigation : String
deriving DecidableEq

/-- The `RISK_PATTERNS["schedule"]` entry. -/
def scheduleRule : CategoryRule :=
  { name := "schedule"
    keywords := ["delay", "behind schedule", "late", "postpone", "extension", "timeline"]
    mitigation := "Add buffer time, expedite critical path, monitor progress daily" }

/-- The `RISK_PATTERNS["cost"]` entry. -/
def costRule : CategoryRule :=
  { name := "cost"
    keywords := ["over budget", "cost overrun", "expensive", "price increase",
                 "additional cost", "budget issue"]
    mitigation := "Value engineering, negotiate contracts, monitor expenses weekly" }

/-- The `RISK_PATTERNS["safety"]` entry. -/
def safetyRule : CategoryRule :=
  { name := "safety"
    keywords := ["accident", "injury", "unsafe", "hazard", "danger", "violation",
                 "safety concern"]
    mitigation := "Safety training, daily inspections, implement safety protocols" }

/-- The `RISK_PATTERNS["quality"]` entry. -/
def qualityRule : CategoryRule :=
  { name := "quality"
    keywords := ["defect", "poor quality", "rework", "failure", "issue", "problem",
                 "non-conformance"]
    mitigation := "Quality control checks, supplier evaluation, testing protocols" }

/-- The `RISK_PATTERNS` table, in Python dict insertion order. -/
def RISK_PATTERNS : List CategoryRule := [scheduleRule, costRule, safetyRule, qualityRule]

/-- The normalized copy `text.lower()` of the input used for matching. -/
def lowerText (text : List Char) : List Char := text.map Char.toLower

/-- Boolean substring containment on character lists, Python's
`needle in haystack` on strings. -/
def containsSub (needle : List Char) : List Char → Bool
  | [] => needle.isEmpty
  | c :: rest => needle.isPrefixOf (c :: rest) || containsSub needle rest

/-- The test `keyword in text_lower`: Python substring containment. -/
def keywordMatches (kw : String) (textLower : List Char) : Bool :=
  containsSub kw.toList textLower

/-- The scanner's inner loop for one category: the keywords of the rule
found inside the lowered text, in keyword-list order
(`found_keywords.append(keyword)`). -/
def foundKeywords (rule : CategoryRule) (text : List Char) : List String :=
  rule.keywords.filter (fun kw => keywordMatches kw (lowerText text))

/-- The formula `probability = min(len(found_keywords) * 0.15, 0.9)`. -/
def probabilityOf (n : Nat) : ℚ := min ((n : ℚ) * (15 / 100)) (9 / 10)

/-- The formula `impact = 0.7 if category in ['safety', 'cost'] else 0.5`. -/
def impactOf (name : String) : ℚ :=
  if name = "safety" ∨ name = "cost" then 7 / 10 else 1 / 2

/-- The bucketing `"HIGH" if risk_score > 0.5 else "MEDIUM" if risk_score > 0.2 else "LOW"`. -/
def priorityOf (risk_score : ℚ) : String :=
  if risk_score > 1 / 2 then "HIGH" else if risk_score > 1 / 5 then "MEDIUM" else "LOW"

/-- The display form `category.upper()`: character-wise uppercasing (the category names are
ASCII, where Python `str.upper` is exactly a per-character map). -/
def upperString (s : String) : String := String.mk (s.toList.map Char.toUpper)

/-- One element of the `detected_risks` list built by `analyze_text`. -/
structure DetectedRisk where
  category : String
  keywords_found : List String
  probability : ℚ
  impact : ℚ
  risk_score : ℚ
  priority : String
  mitigation : String
deriving DecidableEq

/-- The scorer: the dict appended to `detected_risks` for a category whose
`found_keywords` list is `found`. -/
def scoreCategory (rule : CategoryRule) (found : List String) : DetectedRisk :=
  let probability := probabilityOf found.length
  let impact := impactOf rule.name
  let risk_score := probability * impact
  { category := upperString rule.name
    keywords_found := found
    probability := probability
    impact := impact
    risk_score := risk_score
    priority := priorityOf risk_score
    mitigation := rule.mitigation }

/-- The scanner + scorer loop of `analyze_text`: one `DetectedRisk` per
category with at least one keyword hit, in rule-table order. -/
def detectRisks (text : List Char) : List DetectedRisk :=
  RISK_PATTERNS.filterMap fun rule =>
    let found := foundKeywords rule text
    if found.isEmpty then none else some (scoreCategory rule found)

/-- The aggregate `overall_score = sum(...) / len(...) if detected_risks else 0`. -/
def overallScore (detected : List DetectedRisk) : ℚ :=
  if detected.isEmpty then 0
  else (detected.map DetectedRisk.risk_score).sum / (detected.length : ℚ)

/-- The bucketing `"HIGH" if overall_score > 0.6 else "MEDIUM" if overall_score > 0.3 else "LOW"`. -/
def riskLevelOf (overall : ℚ) : String :=
  if overall > 6 / 10 then "HIGH" else if overall > 3 / 10 then "MEDIUM" else "LOW"

/-- A row of the `projects` table. -/
structure Project where
  id : Int
  name : String
  description : String
  status : String
deriving DecidableEq

/-- A row of the `risks` table.  The schema declares `project_id INTEGER`
with no foreign-key clause, so any integer is accepted.  `created_date`
(`TIMESTAMP DEFAULT CURRENT_TIMESTAMP`) is an abstract clock value. -/
structure RiskRecord where
  id : Nat
  project_id : Int
  title : String
  description : String
  category : String
  probability : ℚ
  impact : ℚ
  risk_score : ℚ
  status : String
  priority : String
  mitigation_plan : String
  created_date : Nat
deriving DecidableEq

/-- The SQLite database: the two tables in rowid (insertion) order, the
`AUTOINCREMENT` counter for `risks.id`, and the current clock. -/
structure Store where
  projects : List Project
  risks : List RiskRecord
  nextRiskId : Nat
  now : Nat
deriving DecidableEq

/-- One `INSERT INTO risks ...` of the loop in `analyze_text`, building the
row from one `detected_risks` entry. -/
def insertRisk (pid : Int) (r : DetectedRisk) (s : Store) : Store :=
  { s with
    risks := s.risks ++ [{
      id := s.nextRiskId
      project_id := pid
      title := r.category ++ " Risk - " ++ String.intercalate ", " (r.keywords_found.take 3)
      description := "Automatically identified from text analysis. Keywords: " ++
        String.intercalate ", " r.keywords_found
      category := r.category
      probability := r.probability
      impact := r.impact
      risk_score := r.risk_score
      status := "Identified"
      priority := r.priority
      mitigation_plan := r.mitigation
      created_date := s.now }]
    nextRiskId := s.nextRiskId + 1 }

/-- The `for risk in detected_risks` insert loop. -/
def saveAll (pid : Int) (detected : List DetectedRisk) (s : Store) : Store :=
  detected.foldl (fun st r => insertRisk pid r st) s

/-- Outcome of the database connection used by an endpoint call: `ok`
commits, `fail msg` is an exception from the storage layer (caught by the
endpoint's `except` clause; the open transaction is rolled back). -/
inductive DbOutcome where
  | ok : DbOutcome
  | fail (msg : String) : DbOutcome
deriving DecidableEq

/-- The JSON body returned by `/api/analyze/text`: either the success dict
(`total_risks_detected`, `overall_risk_score`, `detected_risks`,
`risk_level`) or the `except` clause's `{"success": False, "error": ...}`. -/
inductive AnalyzeResponse where
  | success (total : Nat) (overall : ℚ) (detected : List DetectedRisk) (level : String)
  | failure (error : String)
deriving DecidableEq

/-- The detected-risks list carried by a response, if any. -/
def AnalyzeResponse.detectedList : AnalyzeResponse → Option (List DetectedRisk)
  | .success _ _ d _ => some d
  | .failure _ => none

/-- The `analyze_text` endpoint: scanner/scorer pipeline, then the insert
loop against the store, then the aggregated response.  On a storage
failure the `except` clause returns the error dict and the uncommitted
transaction leaves the store unchanged. -/
def analyzeText (db : DbOutcome) (text : List Char) (pid : Int) (s : Store) :
    AnalyzeResponse × Store :=
  let detected := detectRisks text
  match db with
  | .fail msg => (.failure msg, s)
  | .ok =>
    let s' := saveAll pid detected s
    let overall := overallScore detected
    (.success detected.length overall detected (riskLevelOf overall), s')

/-- The JSON body returned by `/api/risks/{risk_id}/update`. -/
structure UpdateResponse where
  success : Bool
  message : String
deriving DecidableEq

/-- The `update_risk` endpoint: `UPDATE risks SET status = ? WHERE id = ?`
then commit; the response is the same success dict whether or not any row
matched. -/
def updateRisk (riskId : Nat) (newStatus : String) (s : Store) : UpdateResponse × Store :=
  ({ success := true, message := "Risk updated successfully" },
   { s with risks := s.risks.map fun r =>
       if r.id = riskId then { r with status := newStatus } else r })

/-- A row of the `SELECT r.*, p.name as project_name FROM risks r JOIN
projects p ON r.project_id = p.id` result. -/
structure RiskRow where
  record : RiskRecord
  project_name : String
deriving DecidableEq

/-- The inner join of `risks` with `projects`: one row per risk whose
`project_id` matches a project id (`projects.id` is the INTEGER PRIMARY
KEY, hence unique, so `find?` returns the matching project). -/
def joinRows (s : Store) : List RiskRow :=
  s.risks.filterMap fun r =>
    (s.projects.find? fun p => p.id = r.project_id).map fun p =>
      { record := r, project_name := p.name }

/-- The `WHERE r.project_id = ?` filter of `risks_page_main`, applied only
when `project_id_int` is truthy (`if project_id_int:` — `None` and `0`
both fall through to the unfiltered query). -/
def applyProjectFilter (pid : Option Int) (rows : List RiskRow) : List RiskRow :=
  match pid with
  | none => rows
  | some p => if p = 0 then rows else rows.filter fun row => row.record.project_id = p

/-- Insert one row into a list already sorted by `risk_score` descending,
before the first row whose score is not larger — the stable placement, so
earlier (smaller rowid) rows stay first among equal scores. -/
def insertDesc (row : RiskRow) : List RiskRow → List RiskRow
  | [] => [row]
  | r :: rs =>
    if r.record.risk_score ≤ row.record.risk_score then row :: r :: rs
    else r :: insertDesc row rs

/-- Stable insertion sort by `risk_score` descending: the `ORDER BY
r.risk_score DESC` of `risks_page_main`, with rows scanned in rowid
(insertion) order. -/
def sortByScoreDesc : List RiskRow → List RiskRow
  | [] => []
  | r :: rs => insertDesc r (sortByScoreDesc rs)

/-- The query of the `risks_page_main` route: join, optional project
filter, `ORDER BY r.risk_score DESC`. -/
def listRisks (pid : Option Int) (s : Store) : List RiskRow :=
  sortByScoreDesc (applyProjectFilter pid (joinRows s))

/-- The three sample projects inserted by `init_db` into an empty
database (`AUTOINCREMENT` ids 1, 2, 3). -/
def sampleProjects : List Project :=
  [{ id := 1, name := "Downtown Office Tower",
     description := "Commercial office building - 20 floors", status := "Planning" },
   { id := 2, name := "River Bridge Construction",
     description := "Highway bridge across River", status := "Planning" },
   { id := 3, name := "Hospital Renovation",
     description := "Medical facility upgrade", status := "Planning" }]

/-- The store right after `init_db` on a fresh database. -/
def initStore : Store :=
  { projects := sampleProjects, risks := [], nextRiskId := 1, now := 0 }

/-- The single `DetectedRisk` produced for the text `"delay"`. -/
def demoRisk : DetectedRisk :=
  { category := "SCHEDULE", keywords_found := ["delay"], probability := 3/20,
    impact := 1/2, risk_score := 3/40, priority := "LOW",
    mitigation := "Add buffer time, expedite critical path, monitor progress daily" }

/-! ## Claim C1: the per-category scorer formula -/

@[simp] theorem scoreCategory_category (rule : CategoryRule) (found : List String) :
    (scoreCategory rule found).category = upperString rule.name := rfl

@[simp] theorem scoreCategory_keywords (rule : CategoryRule) (found : List String) :
    (scoreCategory rule found).keywords_found = found := rfl

@[simp] theorem scoreCategory_probability (rule : CategoryRule) (found : List String) :
    (scoreCategory rule found).probability = probabilityOf found.length := rfl

@[simp] theorem scoreCategory_impact (rule : CategoryRule) (found : List String) :
    (scoreCategory rule found).impact = impactOf rule.name := rfl

@[simp] theorem scoreCategory_risk_score (rule : CategoryRule) (found : List String) :
    (scoreCategory rule found).risk_score = probabilityOf found.length * impactOf rule.name :=
  rfl

@[simp] theorem scoreCategory_priority (rule : CategoryRule) (found : List String) :
    (scoreCategory rule found).priority =
      priorityOf (probabilityOf found.length * impactOf rule.name) := rfl

@[simp] theorem scoreCategory_mitigation (rule : CategoryRule) (found : List String) :
    (scoreCategory rule found).mitigation = rule.mitigation := rfl

/-- A detected risk is exactly a scored rule with a nonempty keyword-hit
list. -/
theorem mem_detectRisks_iff (text : List Char) (d : DetectedRisk) :
    d ∈ detectRisks text ↔
      ∃ rule ∈ RISK_PATTERNS, (foundKeywords rule text).isEmpty = false ∧
        d = scoreCategory rule (foundKeywords rule text) := by
  rw [detectRisks, List.mem_filterMap]
  constructor
  · rintro ⟨rule, hrule, heq⟩
    refine ⟨rule, hrule, ?_⟩
    by_cases hE : (foundKeywords rule text).isEmpty
    · simp [hE] at heq
    · simp only [hE, if_neg, Bool.not_eq_true, Option.some.injEq] at heq
      exact ⟨by simpa using hE, heq.symm⟩
  · rintro ⟨rule, hrule, hE, rfl⟩
    exact ⟨rule, hrule, by simp [hE]⟩

/-- C1: every category entry produced by the analysis has ≥ 1 keyword hit,
probability `min(n × 0.15, 0.9)`, impact 0.7 for safety/cost and 0.5
otherwise, `risk_score = probability × impact`, and priority HIGH above
0.5, MEDIUM above 0.2, LOW otherwise; a score of exactly 0.5 is MEDIUM
and exactly 0.2 is LOW. -/
theorem scorer_per_category (text : List Char) (d : DetectedRisk)
    (hd : d ∈ detectRisks text) :
    1 ≤ d.keywords_found.length ∧
    d.probability = min ((d.keywords_found.length : ℚ) * (15 / 100)) (9 / 10) ∧
    d.impact = (if d.category = "SAFETY" ∨ d.category = "COST" then 7 / 10 else 1 / 2) ∧
    d.risk_score = d.probability * d.impact ∧
    d.priority = (if d.risk_score > 1 / 2 then "HIGH"
                  else if d.risk_score > 1 / 5 then "MEDIUM" else "LOW") ∧
    priorityOf (1 / 2) = "MEDIUM" ∧ priorityOf (1 / 5) = "LOW" := by
  rw [mem_detectRisks_iff] at hd
  obtain ⟨rule, hrule, hE, rfl⟩ := hd
  have h1 : 1 ≤ (foundKeywords rule text).length :=
    List.length_pos.mpr (by simpa using hE)
  simp only [RISK_PATTERNS, List.mem_cons, List.not_mem_nil, or_false] at hrule
  rcases hrule with h | h | h | h <;> subst h <;>
    exact ⟨h1, rfl,
      by rw [scoreCategory_impact, scoreCategory_category]; decide,
      rfl, rfl, by decide, by decide⟩

/-- C1 witness: the theorem at the text `"delay"` and its single detected
risk. -/
theorem scorer_per_category_witness :
    1 ≤ demoRisk.keywords_found.length ∧
    demoRisk.probability =
      min ((demoRisk.keywords_found.length : ℚ) * (15 / 100)) (9 / 10) ∧
    demoRisk.impact =
      (if demoRisk.category = "SAFETY" ∨ demoRisk.category = "COST" then 7 / 10 else 1 / 2) ∧
    demoRisk.risk_score = demoRisk.probability * demoRisk.impact ∧
    demoRisk.priority = (if demoRisk.risk_score > 1 / 2 then "HIGH"
                  else if demoRisk.risk_score > 1 / 5 then "MEDIUM" else "LOW") ∧
    priorityOf (1 / 2) = "MEDIUM" ∧ priorityOf (1 / 5) = "LOW" :=
  scorer_per_category "delay".toList demoRisk (by decide)

/-! ## Claim C2: the overall aggregation -/

/-- The overall score times the number of detected categories is the sum
of their risk scores (the mean property, valid also for the empty list). -/
theorem overallScore_mul_length (detected : List DetectedRisk) :
    overallScore detected * (detected.length : ℚ) =
      (detected.map DetectedRisk.risk_score).sum := by
  rw [overallScore]
  rcases detected with _ | ⟨d, ds⟩
  · simp
  · rw [if_neg (by simp)]
    refine div_mul_cancel₀ _ ?_
    have : (0 : ℚ) ≤ (ds.length : ℚ) := Nat.cast_nonneg _
    intro h
    simp only [List.length_cons] at h
    push_cast at h
    linarith

theorem riskLevelOf_high_iff (q : ℚ) : riskLevelOf q = "HIGH" ↔ 6 / 10 < q := by
  constructor
  · intro h
    by_contra hq
    rw [riskLevelOf, if_neg hq] at h
    split at h <;> exact absurd h (by decide)
  · intro h
    rw [riskLevelOf, if_pos h]

theorem riskLevelOf_medium_iff (q : ℚ) :
    riskLevelOf q = "MEDIUM" ↔ 3 / 10 < q ∧ q ≤ 6 / 10 := by
  constructor
  · intro h
    rw [riskLevelOf] at h
    by_cases h6 : (6 : ℚ) / 10 < q
    · rw [if_pos h6] at h
      exact absurd h (by decide)
    · rw [if_neg h6] at h
      by_cases h3 : (3 : ℚ) / 10 < q
      · exact ⟨h3, not_lt.mp h6⟩
      · rw [if_neg h3] at h
        exact absurd h (by decide)
  · rintro ⟨h3, h6⟩
    rw [riskLevelOf, if_neg (not_lt.mpr h6), if_pos h3]

theorem riskLevelOf_low_iff (q : ℚ) : riskLevelOf q = "LOW" ↔ q ≤ 3 / 10 := by
  constructor
  · intro h
    rw [riskLevelOf] at h
    by_cases h6 : (6 : ℚ) / 10 < q
    · rw [if_pos h6] at h
      exact absurd h (by decide)
    · rw [if_neg h6] at h
      by_cases h3 : (3 : ℚ) / 10 < q
      · rw [if_pos h3] at h
        exact absurd h (by decide)
      · exact not_lt.mp h3
  · intro h
    have h6 : ¬ (6 : ℚ) / 10 < q := not_lt.mpr (h.trans (by norm_num))
    rw [riskLevelOf, if_neg h6, if_neg (not_lt.mpr h)]

/-- C2: the successful analysis response carries the arithmetic mean of
the detected risk scores as overall score (0 when nothing matched, never
an error), and the overall level uses the 0.6/0.3 thresholds — distinct
from the per-category 0.5/0.2 pair, as 0.55 and 0.25 separate them. -/
theorem overall_aggregation (text : List Char) (pid : Int) (s : Store) (q : ℚ) :
    (analyzeText DbOutcome.ok text pid s).1 =
      AnalyzeResponse.success (detectRisks text).length (overallScore (detectRisks text))
        (detectRisks text) (riskLevelOf (overallScore (detectRisks text))) ∧
    overallScore ([] : List DetectedRisk) = 0 ∧
    overallScore (detectRisks text) * ((detectRisks text).length : ℚ) =
      ((detectRisks text).map DetectedRisk.risk_score).sum ∧
    (riskLevelOf q = "HIGH" ↔ 6 / 10 < q) ∧
    (riskLevelOf q = "MEDIUM" ↔ 3 / 10 < q ∧ q ≤ 6 / 10) ∧
    (riskLevelOf q = "LOW" ↔ q ≤ 3 / 10) ∧
    priorityOf (11 / 20) = "HIGH" ∧ riskLevelOf (11 / 20) = "MEDIUM" ∧
    priorityOf (1 / 4) = "MEDIUM" ∧ riskLevelOf (1 / 4) = "LOW" :=
  ⟨rfl, rfl, overallScore_mul_length _, riskLevelOf_high_iff q,
   riskLevelOf_medium_iff q, riskLevelOf_low_iff q,
   by decide, by decide, by decide, by decide⟩

/-! ## Claim C3: saving for a nonexistent project -/

/-- The loop `saveAll` appends one new record per detected risk, each carrying the
given `project_id` unchecked. -/
theorem saveAll_risks (pid : Int) (ds : List DetectedRisk) (s : Store) :
    ∃ new : List RiskRecord,
      (saveAll pid ds s).risks = s.risks ++ new ∧
      new.length = ds.length ∧
      new.map RiskRecord.project_id = List.replicate ds.length pid := by
  induction ds generalizing s with
  | nil => exact ⟨[], by simp [saveAll], rfl, rfl⟩
  | cons d ds ih =>
    obtain ⟨new, hnew, hlen, hmap⟩ := ih (insertRisk pid d s)
    refine ⟨((insertRisk pid d s).risks.drop s.risks.length) ++ new, ?_, ?_, ?_⟩
    · rw [show saveAll pid (d :: ds) s = saveAll pid ds (insertRisk pid d s) from rfl, hnew,
        insertRisk]
      simp
    · rw [List.length_append, hlen, insertRisk]
      simp [Nat.add_comm]
    · rw [List.map_append, hmap, insertRisk]
      simp [List.replicate_succ]

/-- C3 counterexample: neither of the three projects has id 99, yet
analyzing `"delay"` against project 99 succeeds and persists one risk
record with the dangling `project_id = 99` — no `ReferentialIntegrityError`
exists in the code (`risks.project_id` has no FOREIGN KEY constraint). -/
theorem save_nonexistent_project_counterexample :
    initStore.projects.all (fun p => p.id != 99) = true ∧
    (analyzeText DbOutcome.ok "delay".toList 99 initStore).1 =
      AnalyzeResponse.success 1 (3 / 40) [demoRisk] "LOW" ∧
    (analyzeText DbOutcome.ok "delay".toList 99 initStore).2.risks.map
      RiskRecord.project_id = [99] := by
  decide

/-- C3 amended: saving detected risks never checks the project reference:
for every store and every project id, the save appends exactly one record
per detected category, each with that project id, leaving the existing
records in place — orphan records included, with no error raised. -/
theorem save_appends_per_category (text : List Char) (pid : Int) (s : Store) :
    (analyzeText DbOutcome.ok text pid s).2.risks.length =
      s.risks.length + (detectRisks text).length ∧
    (analyzeText DbOutcome.ok text pid s).2.risks.take s.risks.length = s.risks ∧
    ((analyzeText DbOutcome.ok text pid s).2.risks.drop s.risks.length).map
      RiskRecord.project_id = List.replicate (detectRisks text).length pid := by
  obtain ⟨new, hnew, hlen, hmap⟩ := saveAll_risks pid (detectRisks text) s
  have h2 : (analyzeText DbOutcome.ok text pid s).2 = saveAll pid (detectRisks text) s := rfl
  rw [h2, hnew]
  refine ⟨by simp [hlen], ?_, ?_⟩
  · exact List.take_left _ _
  · rw [List.drop_left, hmap]

/-! ## Claim C4: status update for a nonexistent risk id -/

/-- C4 counterexample: the store holds no risks at all, yet updating risk
99 returns `success = True` and leaves the store unchanged — there is no
`NotFoundError`; the `UPDATE` simply matches zero rows and commits. -/
theorem update_missing_risk_counterexample :
    initStore.risks = [] ∧
    (updateRisk 99 "Closed" initStore).1.success = true ∧
    (updateRisk 99 "Closed" initStore).2 = initStore := by
  decide

/-- C4 amended: for every risk id that exists nowhere in the store,
`update_risk` reports success and has no effect (the success flag is
`true` and the store is unchanged); no failure is reported. -/
theorem update_missing_risk_noop (rid : Nat) (st : String) (s : Store)
    (h : ∀ r ∈ s.risks, r.id ≠ rid) :
    (updateRisk rid st s).1.success = true ∧ (updateRisk rid st s).2 = s := by
  refine ⟨rfl, ?_⟩
  have hmap : s.risks.map
      (fun r => if r.id = rid then { r with status := st } else r) = s.risks := by
    have hco : s.risks.map
        (fun r => if r.id = rid then { r with status := st } else r) = s.risks.map id :=
      List.map_congr_left fun r hr => if_neg (h r hr)
    rw [hco, List.map_id]
  show ({ s with risks := s.risks.map _ } : Store) = s
  rw [hmap]

/-- C4 witness: the amended theorem at risk id 99 on the freshly
initialized store. -/
theorem update_missing_risk_noop_witness :
    (updateRisk 99 "Closed" initStore).1.success = true ∧
    (updateRisk 99 "Closed" initStore).2 = initStore :=
  update_missing_risk_noop 99 "Closed" initStore (by decide)

/-! ## Claim C5: texts with no configured keyword -/

/-- C5: when no keyword of any category occurs in the lowered text, the
analysis returns 0 detected risks, overall score 0, level LOW, and the
store is left untouched (no record persisted). -/
theorem analyze_no_keywords (text : List Char) (pid : Int) (s : Store)
    (h : ∀ rule ∈ RISK_PATTERNS, ∀ kw ∈ rule.keywords,
      keywordMatches kw (lowerText text) = false) :
    detectRisks text = [] ∧
    analyzeText DbOutcome.ok text pid s = (AnalyzeResponse.success 0 0 [] "LOW", s) := by
  have hdet : detectRisks text = [] := by
    rw [detectRisks, List.filterMap_eq_nil_iff]
    intro rule hrule
    have hfk : foundKeywords rule text = [] := by
      rw [foundKeywords, List.filter_eq_nil_iff]
      intro kw hkw
      simp [h rule hrule kw hkw]
    simp [hfk]
  refine ⟨hdet, ?_⟩
  have hres : analyzeText DbOutcome.ok text pid s =
      (AnalyzeResponse.success (detectRisks text).length (overallScore (detectRisks text))
        (detectRisks text) (riskLevelOf (overallScore (detectRisks text))),
       saveAll pid (detectRisks text) s) := rfl
  rw [hres, hdet]
  norm_num [saveAll, overallScore, riskLevelOf]

/-- C5 witness: the empty text on the freshly initialized store. -/
theorem analyze_no_keywords_witness :
    detectRisks "".toList = [] ∧
    analyzeText DbOutcome.ok "".toList 1 initStore =
      (AnalyzeResponse.success 0 0 [] "LOW", initStore) :=
  analyze_no_keywords "".toList 1 initStore (by decide)

/-! ## Claim C6: behavior when the persistence layer fails -/

/-- C6 counterexample: the scanner/scorer find a schedule risk in
`"delay"`, but when the storage layer fails the endpoint's `except` clause
returns only `{"success": False, "error": ...}` — the caller does not
receive the detection result. -/
theorem storage_failure_counterexample :
    detectRisks "delay".toList = [demoRisk] ∧
    (analyzeText (DbOutcome.fail "database is locked") "delay".toList 1
      initStore).1.detectedList = none ∧
    (analyzeText (DbOutcome.fail "database is locked") "delay".toList 1 initStore).1 =
      AnalyzeResponse.failure "database is locked" ∧
    (analyzeText (DbOutcome.fail "database is locked") "delay".toList 1 initStore).2 =
      initStore := by
  decide

/-- C6 amended: on a persistence failure the store is unchanged and the
caller receives a failure response carrying only the error message, with
no detection data; the response does not depend on the text or the store,
so a persistence failure is not distinguishable from any other failure by
its payload. -/
theorem storage_failure_response (text text' : List Char) (pid pid' : Int)
    (s s' : Store) (msg : String) :
    (analyzeText (DbOutcome.fail msg) text pid s).2 = s ∧
    (analyzeText (DbOutcome.fail msg) text pid s).1.detectedList = none ∧
    (analyzeText (DbOutcome.fail msg) text pid s).1 =
      (analyzeText (DbOutcome.fail msg) text' pid' s').1 :=
  ⟨rfl, rfl, rfl⟩

/-! ## Claim C8: a status update changes nothing but the status -/

/-- C8: updating a risk's status rewrites only the `status` column of the
rows whose id matches; every other field of every record, the record
order, the projects table and the id counter are unchanged. -/
theorem update_status_frame (rid : Nat) (st : String) (s : Store) :
    (updateRisk rid st s).1.success = true ∧
    (updateRisk rid st s).2.projects = s.projects ∧
    (updateRisk rid st s).2.nextRiskId = s.nextRiskId ∧
    (updateRisk rid st s).2.now = s.now ∧
    (updateRisk rid st s).2.risks.length = s.risks.length ∧
    List.Forall₂ (fun r r' : RiskRecord =>
        r'.id = r.id ∧ r'.project_id = r.project_id ∧ r'.title = r.title ∧
        r'.description = r.description ∧ r'.category = r.category ∧
        r'.probability = r.probability ∧ r'.impact = r.impact ∧
        r'.risk_score = r.risk_score ∧ r'.priority = r.priority ∧
        r'.mitigation_plan = r.mitigation_plan ∧ r'.created_date = r.created_date ∧
        r'.status = (if r.id = rid then st else r.status))
      s.risks (updateRisk rid st s).2.risks := by
  refine ⟨rfl, rfl, rfl, rfl, by simp [updateRisk], ?_⟩
  have h2 : (updateRisk rid st s).2.risks =
      s.risks.map (fun r => if r.id = rid then { r with status := st } else r) := rfl
  rw [h2, List.forall₂_map_right_iff, List.forall₂_same]
  intro r hr
  by_cases h : r.id = rid <;> simp [h]

/-! ## Claim C7: the risks listing -/

theorem insertDesc_perm (row : RiskRow) (l : List RiskRow) :
    (insertDesc row l).Perm (row :: l) := by
  induction l with
  | nil => exact List.Perm.refl _
  | cons r rs ih =>
    rw [insertDesc]
    split
    · exact List.Perm.refl _
    · exact (ih.cons r).trans (List.Perm.swap row r rs)

theorem pairwise_insertDesc (row : RiskRow) (l : List RiskRow)
    (hl : l.Pairwise (fun a b => b.record.risk_score ≤ a.record.risk_score)) :
    (insertDesc row l).Pairwise (fun a b => b.record.risk_score ≤ a.record.risk_score) := by
  induction l with
  | nil => simp [insertDesc]
  | cons r rs ih =>
    rw [insertDesc]
    rcases List.pairwise_cons.mp hl with ⟨hr, hrs⟩
    split
    · rename_i hcond
      refine List.pairwise_cons.mpr ⟨?_, hl⟩
      intro b hb
      rcases List.mem_cons.mp hb with rfl | hb
      · exact hcond
      · exact (hr b hb).trans hcond
    · rename_i hcond
      push_neg at hcond
      refine List.pairwise_cons.mpr ⟨?_, ih hrs⟩
      intro b hb
      have hb' := (insertDesc_perm row rs).mem_iff.mp hb
      rcases List.mem_cons.mp hb' with rfl | hb'
      · exact le_of_lt hcond
      · exact hr b hb'

theorem sortByScoreDesc_perm (l : List RiskRow) : (sortByScoreDesc l).Perm l := by
  induction l with
  | nil => exact List.Perm.refl _
  | cons r rs ih => exact (insertDesc_perm r _).trans (ih.cons r)

theorem sortByScoreDesc_pairwise (l : List RiskRow) :
    (sortByScoreDesc l).Pairwise (fun a b => b.record.risk_score ≤ a.record.risk_score) := by
  induction l with
  | nil => simp [sortByScoreDesc]
  | cons r rs ih => exact pairwise_insertDesc r _ ih

/-- Inserting into a descending-sorted list puts the new row in front of
every row of equal score already present. -/
theorem filter_insertDesc (q : ℚ) (row : RiskRow) (l : List RiskRow)
    (hl : l.Pairwise (fun a b => b.record.risk_score ≤ a.record.risk_score)) :
    (insertDesc row l).filter (fun x => decide (x.record.risk_score = q)) =
      if row.record.risk_score = q
      then row :: l.filter (fun x => decide (x.record.risk_score = q))
      else l.filter (fun x => decide (x.record.risk_score = q)) := by
  induction l with
  | nil =>
    rw [insertDesc]
    by_cases hq : row.record.risk_score = q <;> simp [hq]
  | cons r rs ih =>
    rw [insertDesc]
    rcases List.pairwise_cons.mp hl with ⟨hr, hrs⟩
    split
    · rename_i hcond
      by_cases hq : row.record.risk_score = q <;> simp [List.filter_cons, hq]
    · rename_i hcond
      push_neg at hcond
      by_cases hq : row.record.risk_score = q
      · have hrq : r.record.risk_score ≠ q := by
          rw [← hq]
          exact ne_of_gt hcond
        simp [List.filter_cons, hrq, ih hrs, hq]
      · simp [List.filter_cons, ih hrs, hq]

/-- The `ORDER BY risk_score DESC` sort is stable: among rows of any fixed
score the original (insertion) order is kept. -/
theorem sortByScoreDesc_stable (q : ℚ) (l : List RiskRow) :
    (sortByScoreDesc l).filter (fun x => decide (x.record.risk_score = q)) =
      l.filter (fun x => decide (x.record.risk_score = q)) := by
  induction l with
  | nil => rfl
  | cons r rs ih =>
    rw [sortByScoreDesc, filter_insertDesc q r _ (sortByScoreDesc_pairwise rs)]
    by_cases hq : r.record.risk_score = q <;> simp [List.filter_cons, hq, ih]

/-- C7 counterexample: one risk record was saved against the nonexistent
project 99, and `list_risks` with no filter returns the empty list — the
orphan record is omitted by the `JOIN projects` clause, so not every risk
record is returned. -/
theorem list_risks_omits_orphan_counterexample :
    (analyzeText DbOutcome.ok "delay".toList 99 initStore).2.risks.length = 1 ∧
    listRisks none ((analyzeText DbOutcome.ok "delay".toList 99 initStore).2) = [] := by
  decide

/-- C7 amended: `list_risks` returns the risk records that join to an
existing project (records with a dangling `project_id` are omitted by the
inner join), filtered to the requested project when a nonzero id is given,
ordered by `risk_score` descending with ties kept in insertion order. -/
theorem list_risks_spec (pid : Option Int) (s : Store) (q : ℚ) :
    (listRisks pid s).Pairwise (fun a b => b.record.risk_score ≤ a.record.risk_score) ∧
    (listRisks pid s).Perm (applyProjectFilter pid (joinRows s)) ∧
    (listRisks pid s).filter (fun x => decide (x.record.risk_score = q)) =
      (applyProjectFilter pid (joinRows s)).filter
        (fun x => decide (x.record.risk_score = q)) :=
  ⟨sortByScoreDesc_pairwise _, sortByScoreDesc_perm _, sortByScoreDesc_stable q _⟩

/-! ## Claim C9: monotonicity below the saturation point -/

/-- C9: for hit counts `n < n'` with `n'` below the saturation point of 6
hits, the probability is strictly larger at `n'`, and so is the risk score
whatever the category's impact weight. -/
theorem probability_strict_mono (name : String) (n n' : Nat)
    (h1 : 1 ≤ n) (h2 : n < n') (h3 : n' < 6) :
    probabilityOf n < probabilityOf n' ∧
    probabilityOf n * impactOf name < probabilityOf n' * impactOf name := by
  have hn5 : (n' : ℚ) ≤ 5 := by exact_mod_cast Nat.lt_succ_iff.mp h3
  have hnn : (n : ℚ) < (n' : ℚ) := by exact_mod_cast h2
  have e2 : probabilityOf n' = (n' : ℚ) * (15 / 100) := by
    rw [probabilityOf, min_eq_left]
    nlinarith
  have e1 : probabilityOf n = (n : ℚ) * (15 / 100) := by
    rw [probabilityOf, min_eq_left]
    nlinarith
  have hlt : probabilityOf n < probabilityOf n' := by
    rw [e1, e2]
    nlinarith
  have hpos : 0 < impactOf name := by
    rw [impactOf]
    split <;> norm_num
  exact ⟨hlt, mul_lt_mul_of_pos_right hlt hpos⟩

/-- C9 witness: one and two schedule hits. -/
theorem probability_strict_mono_witness :
    probabilityOf 1 < probabilityOf 2 ∧
    probabilityOf 1 * impactOf "schedule" < probabilityOf 2 * impactOf "schedule" :=
  probability_strict_mono "schedule" 1 2 (by decide) (by decide) (by decide)

/-! ## Claim C10: keyword overlap between cost and quality -/

/-- The search `containsSub` decides substring containment. -/
theorem containsSub_iff (needle hay : List Char) :
    containsSub needle hay = true ↔ needle <:+: hay := by
  induction hay with
  | nil =>
    rw [containsSub]
    simp [List.isEmpty_iff]
  | cons c rest ih =>
    rw [containsSub]
    simp only [Bool.or_eq_true, List.isPrefixOf_iff_prefix, ih]
    exact List.infix_cons_iff.symm

/-- C10: whenever the cost keyword `"budget issue"` is found in a text,
the quality keyword `"issue"` (a substring of it) is necessarily found
too, so the quality category fires as well. -/
theorem budget_issue_triggers_quality (text : List Char)
    (h : "budget issue" ∈ foundKeywords costRule text) :
    "issue" ∈ foundKeywords qualityRule text ∧
    ∃ d ∈ detectRisks text, d.category = "QUALITY" ∧ "issue" ∈ d.keywords_found := by
  have h2 : keywordMatches "budget issue" (lowerText text) = true :=
    (List.mem_filter.mp h).2
  have hbig : ("budget issue".toList : List Char) <:+: lowerText text :=
    (containsSub_iff _ _).mp h2
  have hsmall : ("issue".toList : List Char) <:+: "budget issue".toList :=
    (containsSub_iff _ _).mp (by decide)
  have hmatch : keywordMatches "issue" (lowerText text) = true :=
    (containsSub_iff _ _).mpr (hsmall.trans hbig)
  have hIssue : "issue" ∈ foundKeywords qualityRule text :=
    List.mem_filter.mpr ⟨by decide, hmatch⟩
  refine ⟨hIssue, scoreCategory qualityRule (foundKeywords qualityRule text), ?_, ?_, ?_⟩
  · exact (mem_detectRisks_iff text _).mpr
      ⟨qualityRule, by decide, by
        simpa using List.ne_nil_of_mem hIssue, rfl⟩
  · rw [scoreCategory_category]
    decide
  · rw [scoreCategory_keywords]
    exact hIssue

/-- C10 witness: the text `"budget issue"` itself. -/
theorem budget_issue_triggers_quality_witness :
    "issue" ∈ foundKeywords qualityRule "budget issue".toList ∧
    ∃ d ∈ detectRisks "budget issue".toList,
      d.category = "QUALITY" ∧ "issue" ∈ d.keywords_found :=
  budget_issue_triggers_quality "budget issue".toList (by decide)

end ConstructSafe
